import Mathlib

/-!
Verification of the Erlang-C staffing engine in `src/app.py`.

The four core functions (`prob_call_waits`, `service_level`, `occupancy`,
`agents_required`) are shallowly embedded over the real numbers: Python
floats become `ℝ`, the agent count (always an `int` in the program: it is
produced by `int(...)` or integer widgets and fed to `range`) becomes `ℤ`,
and every arithmetic exception that the program's `try/except` blocks catch
(`ZeroDivisionError` from a zero divisor) becomes an explicit branch
returning the documented fallback value.  The two unbounded `while` loops of
`agents_required` are embedded as least-witness searches; separate theorems
prove that a witness exists for every input that passes validation, which is
exactly the termination argument for the loops.
-/

namespace MacroDaddy

/-- `max(0, min(x, 1))`, the final clamp of `prob_call_waits` and
`service_level` in the source. -/
noncomputable def clamp01 (x : ℝ) : ℝ := max 0 (min x 1)

/-- Offered load (Erlang intensity) as computed inline by every function of
the source: `(calls / (reporting_period_minutes * 60)) * average_handling_time`. -/
noncomputable def offered_load (calls reporting_period_minutes average_handling_time : ℝ) : ℝ :=
  calls / (reporting_period_minutes * 60) * average_handling_time

/-- State of the source loop
`for k in range(agents, -1, -1): A_k = A_n * k / intensity; sum_A_k += A_k; A_n = A_k`,
processing `k` from the first argument down to `0` with running ratio `A`;
returns the accumulated `sum_A_k`. -/
noncomputable def erlangSumAux (a : ℝ) : ℕ → ℝ → ℝ
  | 0, A => A * 0 / a
  | k + 1, A => A * ((k : ℝ) + 1) / a + erlangSumAux a k (A * ((k : ℝ) + 1) / a)

/-- The value of `sum_A_k` after the source loop, for `agents = n`, starting
from `A_n = 1.0` and `sum_A_k = 0.0`. -/
noncomputable def erlangSum (a : ℝ) (n : ℕ) : ℝ := erlangSumAux a n 1

open Classical in
/-- Body of `prob_call_waits` as a function of the derived intensity `a` and
the agent count: the source reads its three load arguments only through
`intensity`.  Each `if` branch returning `1` is one arithmetic failure caught
by the source's `except: prob = 1`:
* `n = 0`: `ZeroDivisionError` computing `intensity / agents`;
* `a = 0 ∧ 0 < n`: `ZeroDivisionError` at the first loop iteration
  (`A_n * k / intensity` with `intensity == 0`; for `n < 0` the `range` is
  empty and the loop never divides);
* `d = 0`: `ZeroDivisionError` computing `1 / (1 + (1 - intensity/agents) * sum_A_k)`. -/
noncomputable def probCore (a : ℝ) (n : ℤ) : ℝ :=
  if n = 0 then 1
  else if a = 0 ∧ 0 < n then 1
  else if 1 + (1 - a / (n : ℝ)) * (if 0 ≤ n then erlangSum a n.toNat else 0) = 0 then 1
  else 1 / (1 + (1 - a / (n : ℝ)) * (if 0 ≤ n then erlangSum a n.toNat else 0))

open Classical in
/-- Raw (unclamped) probability of `prob_call_waits`.  The outer branch is the
`ZeroDivisionError` raised while computing `intensity` itself when
`reporting_period_minutes * 60 == 0`, also caught by `except: prob = 1`. -/
noncomputable def probRaw (calls reporting_period_minutes average_handling_time : ℝ)
    (agents : ℤ) : ℝ :=
  if reporting_period_minutes * 60 = 0 then 1
  else probCore (offered_load calls reporting_period_minutes average_handling_time) agents

/-- `prob_call_waits` from the source: Erlang-C wait probability with the
defensive fallback `prob = 1`, clamped by `max(0, min(prob, 1))`. -/
noncomputable def prob_call_waits (calls reporting_period_minutes average_handling_time : ℝ)
    (agents : ℤ) : ℝ :=
  clamp01 (probRaw calls reporting_period_minutes average_handling_time agents)

open Classical in
/-- Raw (unclamped) value of `service_level`.  The branches returning `0` are
the arithmetic failures caught by the source's `except: sl = 0`:
`ZeroDivisionError` computing `intensity` (zero reporting period) and
`ZeroDivisionError` dividing by `average_handling_time == 0`. -/
noncomputable def slRaw (calls reporting_period_minutes average_handling_time
    service_level_time : ℝ) (agents : ℤ) : ℝ :=
  if reporting_period_minutes * 60 = 0 then 0
  else if average_handling_time = 0 then 0
  else
    1 - prob_call_waits calls reporting_period_minutes average_handling_time agents *
      Real.exp (-((agents : ℝ) -
          offered_load calls reporting_period_minutes average_handling_time) *
        service_level_time / average_handling_time)

/-- `service_level` from the source: expected service level
`1 - prob_wait * exp(-(agents - intensity) * service_level_time / aht)`,
fallback `0`, clamped by `max(0, min(sl, 1))`. -/
noncomputable def service_level (calls reporting_period_minutes average_handling_time
    service_level_time : ℝ) (agents : ℤ) : ℝ :=
  clamp01 (slRaw calls reporting_period_minutes average_handling_time service_level_time agents)

open Classical in
/-- Raw (unclamped) value of `occupancy`.  The branches returning `0.99` are
the failures caught by `except: occ = 0.99`: `ZeroDivisionError` computing
`intensity` and `ZeroDivisionError` dividing by `agents == 0`. -/
noncomputable def occRaw (calls reporting_period_minutes average_handling_time : ℝ)
    (agents : ℤ) : ℝ :=
  if reporting_period_minutes * 60 = 0 then 0.99
  else if agents = 0 then 0.99
  else offered_load calls reporting_period_minutes average_handling_time / (agents : ℝ)

/-- `occupancy` from the source: `intensity / agents`, fallback `0.99`,
clamped by `max(0, min(occ, 0.99))`. -/
noncomputable def occupancy (calls reporting_period_minutes average_handling_time : ℝ)
    (agents : ℤ) : ℝ :=
  max 0 (min (occRaw calls reporting_period_minutes average_handling_time agents) 0.99)

/-- The validation predicate of `agents_required`, literally the disjunction
of the source's range checks (any of them makes the function `return None`). -/
def outOfRange (reporting_period_minutes average_handling_time service_level_target
    max_occupancy_target service_level_time shrinkage_percent : ℝ) : Prop :=
  reporting_period_minutes < 5 ∨ 1500 < reporting_period_minutes ∨
  average_handling_time < 1 ∨ 30000 < average_handling_time ∨
  service_level_target < 0.00001 ∨ 0.9998 < service_level_target ∨
  max_occupancy_target < 0.00001 ∨ 0.9998 < max_occupancy_target ∨
  service_level_time < 1 ∨ 30000 < service_level_time ∨
  shrinkage_percent < 0 ∨ 0.9998 < shrinkage_percent

/-- Python's `int(x)` on a float: truncation toward zero. -/
noncomputable def pyInt (x : ℝ) : ℤ := if 0 ≤ x then ⌊x⌋ else ⌈x⌉

/-- `min_agents = int(intensity); if min_agents < 1: min_agents = 1`. -/
noncomputable def minAgents (calls reporting_period_minutes average_handling_time : ℝ) : ℤ :=
  max 1 (pyInt (offered_load calls reporting_period_minutes average_handling_time))

open Classical in
/-- Index of the first natural number satisfying `P` (`0` if none exists):
the number of extra iterations a `while not P` loop performs.  The embedding
of each `while` loop of `agents_required` uses this together with a theorem
that some index satisfies `P` whenever validation passed, which is the
termination argument for the loop. -/
noncomputable def leastN (P : ℕ → Prop) : ℕ :=
  if h : ∃ n, P n then Nat.find h else 0

/-- Agent count after the source's first search loop
`while service_level(...) < service_level_target: agents += 1`,
starting from `min_agents`. -/
noncomputable def phaseA (calls reporting_period_minutes average_handling_time
    service_level_target service_level_time : ℝ) : ℤ :=
  minAgents calls reporting_period_minutes average_handling_time +
    (leastN fun n => service_level_target ≤
      service_level calls reporting_period_minutes average_handling_time service_level_time
        (minAgents calls reporting_period_minutes average_handling_time + (n : ℤ)))

/-- Agent count after the source's second search loop
`while occupancy(...) > max_occupancy_target: agents += 1`,
starting from the first loop's result: the pre-shrinkage staffing figure. -/
noncomputable def phaseB (calls reporting_period_minutes average_handling_time
    service_level_target service_level_time max_occupancy_target : ℝ) : ℤ :=
  phaseA calls reporting_period_minutes average_handling_time service_level_target
      service_level_time +
    (leastN fun n =>
      occupancy calls reporting_period_minutes average_handling_time
        (phaseA calls reporting_period_minutes average_handling_time service_level_target
            service_level_time + (n : ℤ)) ≤ max_occupancy_target)

open Classical in
/-- `agents_required` from the source: range validation (`None` on failure),
two-phase search, shrinkage clamp `max(0, min(shrinkage_percent, 0.99))`,
inflation `agents / (1 - shrinkage_percent)`, the `calls == 0` short-circuit
returning `0`, and `math.ceil` otherwise.  (The `st.warning` above 600 agents
is I/O only and affects no returned value; the source computes `required`
before testing `calls == 0`, but that computation cannot fail since the
clamped shrinkage keeps the divisor in `[0.01, 1]`, so testing first is
value-equivalent.) -/
noncomputable def agents_required (calls reporting_period_minutes average_handling_time
    service_level_target service_level_time max_occupancy_target
    shrinkage_percent : ℝ) : Option ℤ :=
  if outOfRange reporting_period_minutes average_handling_time service_level_target
      max_occupancy_target service_level_time shrinkage_percent then none
  else if calls = 0 then some 0
  else
    some ⌈(phaseB calls reporting_period_minutes average_handling_time service_level_target
        service_level_time max_occupancy_target : ℝ) /
      (1 - max 0 (min shrinkage_percent 0.99))⌉

/-! ### Basic facts about the clamps -/

theorem clamp01_nonneg (x : ℝ) : 0 ≤ clamp01 x := le_max_left _ _

theorem clamp01_le_one (x : ℝ) : clamp01 x ≤ 1 :=
  max_le (by norm_num) (min_le_right _ _)

theorem clamp01_mono {x y : ℝ} (h : x ≤ y) : clamp01 x ≤ clamp01 y :=
  max_le_max le_rfl (min_le_min h le_rfl)

theorem clamp01_of_one_le {x : ℝ} (h : 1 ≤ x) : clamp01 x = 1 := by
  rw [clamp01, min_eq_right h, max_eq_right (by norm_num : (0 : ℝ) ≤ 1)]

theorem clamp01_one : clamp01 1 = 1 := clamp01_of_one_le le_rfl

/-! ### The Erlang loop: recursion, positivity and a sharp lower bound

`erlangS a n = 1 + erlangSum a n` is the reciprocal of the Erlang-B blocking
probability; it satisfies `S 0 = 1`, `S (n+1) = 1 + ((n+1)/a) * S n`.  The
code's denominator `1 + (1 - a/n) * sum` collapses to `1 + G (n-1) / a` with
`G n = (n + 1 - a) * S n`, and monotonicity of `G` in `n` yields both
positivity of the denominator and antitonicity of the wait probability. -/

theorem erlangSumAux_smul (a : ℝ) (k : ℕ) (A : ℝ) :
    erlangSumAux a k A = A * erlangSumAux a k 1 := by
  induction k generalizing A with
  | zero => simp [erlangSumAux]
  | succ k ih =>
    show A * ((k : ℝ) + 1) / a + erlangSumAux a k (A * ((k : ℝ) + 1) / a) =
      A * (1 * ((k : ℝ) + 1) / a + erlangSumAux a k (1 * ((k : ℝ) + 1) / a))
    rw [ih (A * ((k : ℝ) + 1) / a), ih (1 * ((k : ℝ) + 1) / a)]
    ring

theorem erlangSum_succ (a : ℝ) (n : ℕ) :
    erlangSum a (n + 1) = ((n : ℝ) + 1) / a * (1 + erlangSum a n) := by
  show 1 * ((n : ℝ) + 1) / a + erlangSumAux a n (1 * ((n : ℝ) + 1) / a) = _
  rw [erlangSumAux_smul]
  rw [erlangSum]
  ring

/-- `S n`: one plus the loop sum; the reciprocal of Erlang-B blocking. -/
noncomputable def erlangS (a : ℝ) (n : ℕ) : ℝ := 1 + erlangSum a n

theorem erlangS_zero (a : ℝ) : erlangS a 0 = 1 := by
  simp [erlangS, erlangSum, erlangSumAux]

theorem erlangS_succ (a : ℝ) (n : ℕ) :
    erlangS a (n + 1) = 1 + ((n : ℝ) + 1) / a * erlangS a n := by
  rw [erlangS, erlangSum_succ, erlangS]

theorem one_le_erlangS {a : ℝ} (ha : 0 < a) (n : ℕ) : 1 ≤ erlangS a n := by
  induction n with
  | zero => rw [erlangS_zero]
  | succ n ih =>
    rw [erlangS_succ]
    have h2 : 0 ≤ ((n : ℝ) + 1) / a := by positivity
    nlinarith

theorem erlangSum_nonneg {a : ℝ} (ha : 0 < a) (n : ℕ) : 0 ≤ erlangSum a n := by
  have := one_le_erlangS ha n
  rw [erlangS] at this
  linarith

/-- The sharp lower bound on `S n` that drives convexity of the Erlang-C
denominator: `S n ≥ a (a - n - 2) / ((a - n - 1)² + (n + 1))`.  The bound is
trivial for `a ≤ n + 2` and asymptotically tight as `a → ∞`. -/
theorem erlangS_ge {a : ℝ} (ha : 0 < a) (n : ℕ) :
    a * (a - (n : ℝ) - 2) / ((a - (n : ℝ) - 1) ^ 2 + ((n : ℝ) + 1)) ≤ erlangS a n := by
  have ha' : a ≠ 0 := ne_of_gt ha
  induction n with
  | zero =>
    rw [erlangS_zero]
    push_cast
    rw [div_le_one (by positivity)]
    nlinarith [sq_nonneg (a - 1)]
  | succ n ih =>
    have hD1 : (0 : ℝ) < (a - (n : ℝ) - 1) ^ 2 + ((n : ℝ) + 1) := by positivity
    have hD2 : (0 : ℝ) < (a - (n : ℝ) - 2) ^ 2 + ((n : ℝ) + 2) := by positivity
    have hD1' := ne_of_gt hD1
    have hD2' := ne_of_gt hD2
    rw [erlangS_succ]
    have hstep : a * (a - (n : ℝ) - 3) / ((a - (n : ℝ) - 2) ^ 2 + ((n : ℝ) + 2)) ≤
        1 + ((n : ℝ) + 1) / a *
          (a * (a - (n : ℝ) - 2) / ((a - (n : ℝ) - 1) ^ 2 + ((n : ℝ) + 1))) := by
      rw [div_le_iff₀ hD2]
      have key : (1 + ((n : ℝ) + 1) / a *
            (a * (a - (n : ℝ) - 2) / ((a - (n : ℝ) - 1) ^ 2 + ((n : ℝ) + 1)))) *
            ((a - (n : ℝ) - 2) ^ 2 + ((n : ℝ) + 2)) - a * (a - (n : ℝ) - 3) =
          2 * a ^ 2 / ((a - (n : ℝ) - 1) ^ 2 + ((n : ℝ) + 1)) := by
        field_simp
        ring
      have hpos : (0 : ℝ) ≤ 2 * a ^ 2 / ((a - (n : ℝ) - 1) ^ 2 + ((n : ℝ) + 1)) := by
        positivity
      linarith
    have hmul : ((n : ℝ) + 1) / a *
          (a * (a - (n : ℝ) - 2) / ((a - (n : ℝ) - 1) ^ 2 + ((n : ℝ) + 1))) ≤
        ((n : ℝ) + 1) / a * erlangS a n :=
      mul_le_mul_of_nonneg_left ih (by positivity)
    calc a * (a - ((n : ℕ) + 1 : ℕ) - 2) /
          ((a - ((n : ℕ) + 1 : ℕ) - 1) ^ 2 + (((n : ℕ) + 1 : ℕ) + 1))
        = a * (a - (n : ℝ) - 3) / ((a - (n : ℝ) - 2) ^ 2 + ((n : ℝ) + 2)) := by
          push_cast
          ring
      _ ≤ 1 + ((n : ℝ) + 1) / a *
            (a * (a - (n : ℝ) - 2) / ((a - (n : ℝ) - 1) ^ 2 + ((n : ℝ) + 1))) := hstep
      _ ≤ 1 + ((n : ℝ) + 1) / a * erlangS a n := by linarith

/-- `G n = (n + 1 - a) * S n`; the code's Erlang-C denominator at agent count
`m ≥ 1` equals `1 + G (m - 1) / a`. -/
noncomputable def erlangG (a : ℝ) (n : ℕ) : ℝ := ((n : ℝ) + 1 - a) * erlangS a n

theorem erlangG_zero (a : ℝ) : erlangG a 0 = 1 - a := by
  rw [erlangG, erlangS_zero]
  push_cast
  ring

theorem erlangG_succ_sub {a : ℝ} (ha : a ≠ 0) (n : ℕ) :
    erlangG a (n + 1) - erlangG a n =
      ((n : ℝ) + 2 - a) + (((n : ℝ) + 1 - a) ^ 2 + ((n : ℝ) + 1)) * erlangS a n / a := by
  rw [erlangG, erlangG, erlangS_succ]
  push_cast
  field_simp
  ring

theorem erlangG_mono {a : ℝ} (ha : 0 < a) : Monotone (erlangG a) := by
  have ha' : a ≠ 0 := ne_of_gt ha
  refine monotone_nat_of_le_succ fun n => ?_
  rw [← sub_nonneg, erlangG_succ_sub ha' n]
  have hR := erlangS_ge ha n
  have hD1 : (0 : ℝ) < (a - (n : ℝ) - 1) ^ 2 + ((n : ℝ) + 1) := by positivity
  have hc : (0 : ℝ) ≤ ((n : ℝ) + 1 - a) ^ 2 + ((n : ℝ) + 1) := by positivity
  have key : (((n : ℝ) + 1 - a) ^ 2 + ((n : ℝ) + 1)) *
        (a * (a - (n : ℝ) - 2) / ((a - (n : ℝ) - 1) ^ 2 + ((n : ℝ) + 1))) / a =
      a - (n : ℝ) - 2 := by
    rw [show ((n : ℝ) + 1 - a) ^ 2 = (a - (n : ℝ) - 1) ^ 2 by ring]
    field_simp
  have hmul : (((n : ℝ) + 1 - a) ^ 2 + ((n : ℝ) + 1)) *
        (a * (a - (n : ℝ) - 2) / ((a - (n : ℝ) - 1) ^ 2 + ((n : ℝ) + 1))) / a ≤
      (((n : ℝ) + 1 - a) ^ 2 + ((n : ℝ) + 1)) * erlangS a n / a :=
    (div_le_div_iff_of_pos_right ha).mpr (mul_le_mul_of_nonneg_left hR hc)
  rw [key] at hmul
  linarith

theorem denomS_pos {a : ℝ} (ha : 0 < a) (m : ℕ) : 0 < 1 + erlangG a m / a := by
  have h0 : erlangG a 0 ≤ erlangG a m := erlangG_mono ha (Nat.zero_le m)
  rw [erlangG_zero] at h0
  have h1 : (1 - a) / a ≤ erlangG a m / a := (div_le_div_iff_of_pos_right ha).mpr h0
  have e : 1 + (1 - a) / a = 1 / a := by field_simp
  have : (0 : ℝ) < 1 / a := by positivity
  linarith

theorem denomS_mono {a : ℝ} (ha : 0 < a) {m1 m2 : ℕ} (h : m1 ≤ m2) :
    1 + erlangG a m1 / a ≤ 1 + erlangG a m2 / a := by
  have := (div_le_div_iff_of_pos_right ha).mpr (erlangG_mono ha h)
  linarith

/-- The code's denominator `1 + (1 - a/(m+1)) * sum` in terms of `G`. -/
theorem denom_eq {a : ℝ} (ha : a ≠ 0) (m : ℕ) :
    1 + (1 - a / ((m : ℝ) + 1)) * erlangSum a (m + 1) = 1 + erlangG a m / a := by
  have hs : erlangSum a (m + 1) = ((m : ℝ) + 1) / a * erlangS a m := by
    rw [erlangSum_succ, erlangS]
  rw [hs, erlangG]
  have hm : ((m : ℝ) + 1) ≠ 0 := by positivity
  field_simp
  ring

/-! ### Structure of `prob_call_waits` -/

theorem probCore_nonpos {a : ℝ} {n : ℤ} (hn : n ≤ 0) : probCore a n = 1 := by
  rcases eq_or_lt_of_le hn with h0 | hneg
  · rw [probCore, if_pos h0]
  · have h1 : ¬n = 0 := by omega
    have h2 : ¬(a = 0 ∧ 0 < n) := by
      rintro ⟨-, h⟩
      omega
    have h3 : ¬(0 ≤ n) := by omega
    rw [probCore, if_neg h1, if_neg h2, if_neg h3]
    norm_num

theorem probCore_zero_intensity (n : ℤ) : probCore 0 n = 1 := by
  by_cases h0 : n = 0
  · rw [probCore, if_pos h0]
  · by_cases hpos : 0 < n
    · rw [probCore, if_neg h0, if_pos ⟨rfl, hpos⟩]
    · exact probCore_nonpos (by omega)

theorem probCore_d_eq {a : ℝ} (ha : a ≠ 0) {n : ℤ} (hn : 1 ≤ n) :
    1 + (1 - a / (n : ℝ)) * erlangSum a n.toNat = 1 + erlangG a (n.toNat - 1) / a := by
  obtain ⟨m, hm⟩ : ∃ m : ℕ, n.toNat = m + 1 := ⟨n.toNat - 1, by omega⟩
  have hz : ((m : ℤ) + 1) = n := by omega
  have hcast : (n : ℝ) = (m : ℝ) + 1 := by
    rw [← hz]
    push_cast
    ring
  rw [hm, hcast, Nat.add_sub_cancel]
  exact denom_eq ha m

theorem probCore_eq {a : ℝ} (ha : 0 < a) {n : ℤ} (hn : 1 ≤ n) :
    probCore a n = 1 / (1 + erlangG a (n.toNat - 1) / a) := by
  have h1 : ¬n = 0 := by omega
  have h2 : ¬(a = 0 ∧ 0 < n) := by
    rintro ⟨h, -⟩
    exact absurd h (ne_of_gt ha)
  rw [probCore, if_neg h1, if_neg h2, if_pos (by omega : (0:ℤ) ≤ n),
    probCore_d_eq (ne_of_gt ha) hn, if_neg (ne_of_gt (denomS_pos ha _))]

theorem probCore_antitone {a : ℝ} (ha : 0 < a) {n1 n2 : ℤ} (h1 : 1 ≤ n1) (h12 : n1 ≤ n2) :
    probCore a n2 ≤ probCore a n1 := by
  rw [probCore_eq ha h1, probCore_eq ha (le_trans h1 h12)]
  exact one_div_le_one_div_of_le (denomS_pos ha _) (denomS_mono ha (by omega))

/-- For intensity at or below the agent count (and `a > 0`), the raw Erlang-C
value is at least `1`: the denominator lies in `(0, 1]`. -/
theorem one_le_probCore {a : ℝ} (ha : 0 < a) {n : ℤ} (hn : 1 ≤ n) (hna : (n : ℝ) ≤ a) :
    1 ≤ probCore a n := by
  have hd := probCore_d_eq (ne_of_gt ha) hn
  have hdpos : 0 < 1 + (1 - a / (n : ℝ)) * erlangSum a n.toNat := by
    rw [hd]
    exact denomS_pos ha _
  have hn0 : (0 : ℝ) < (n : ℝ) := by exact_mod_cast hn
  have hfac : 1 - a / (n : ℝ) ≤ 0 := by
    have : 1 ≤ a / (n : ℝ) := (one_le_div hn0).mpr hna
    linarith
  have hsum : 0 ≤ erlangSum a n.toNat := erlangSum_nonneg ha _
  have hdle : 1 + (1 - a / (n : ℝ)) * erlangSum a n.toNat ≤ 1 := by
    nlinarith
  have h1 : ¬n = 0 := by omega
  have h2 : ¬(a = 0 ∧ 0 < n) := by
    rintro ⟨h, -⟩
    exact absurd h (ne_of_gt ha)
  rw [probCore, if_neg h1, if_neg h2, if_pos (by omega : (0:ℤ) ≤ n),
    if_neg (ne_of_gt hdpos)]
  exact one_le_one_div hdpos hdle

theorem offered_load_of_period_zero {c r h : ℝ} (hr : r * 60 = 0) :
    offered_load c r h = 0 := by
  rw [offered_load, hr, div_zero, zero_mul]

theorem pcw_eq_clamp_probCore (c r h : ℝ) (n : ℤ) :
    prob_call_waits c r h n = clamp01 (probCore (offered_load c r h) n) := by
  rw [prob_call_waits, probRaw]
  by_cases h0 : r * 60 = 0
  · rw [if_pos h0, offered_load_of_period_zero h0, probCore_zero_intensity]
  · rw [if_neg h0]

theorem pcw_nonneg (c r h : ℝ) (n : ℤ) : 0 ≤ prob_call_waits c r h n :=
  clamp01_nonneg _

theorem pcw_le_one (c r h : ℝ) (n : ℤ) : prob_call_waits c r h n ≤ 1 :=
  clamp01_le_one _

theorem pcw_antitone {c r h : ℝ} (ha : 0 < offered_load c r h) {n1 n2 : ℤ}
    (h12 : n1 ≤ n2) : prob_call_waits c r h n2 ≤ prob_call_waits c r h n1 := by
  rw [pcw_eq_clamp_probCore, pcw_eq_clamp_probCore]
  rcases le_or_lt n1 0 with hn | hn
  · rw [probCore_nonpos hn, clamp01_one]
    exact clamp01_le_one _
  · exact clamp01_mono (probCore_antitone ha hn h12)

/-! ### Monotonicity of `service_level` and `occupancy` in the agent count -/

/-- For a load in the spec's declared domain (nonnegative call volume,
positive reporting period and handling time, nonnegative wait target),
`service_level` is monotone in the agent count — for every pair of integers. -/
theorem service_level_mono {c r h T : ℝ} (hc : 0 ≤ c) (hr : 0 < r) (hh : 0 < h)
    (hT : 0 ≤ T) {n1 n2 : ℤ} (h12 : n1 ≤ n2) :
    service_level c r h T n1 ≤ service_level c r h T n2 := by
  have hr60 : r * 60 ≠ 0 := by positivity
  have hh0 : h ≠ 0 := ne_of_gt hh
  have ha : 0 ≤ offered_load c r h := by
    rw [offered_load]
    positivity
  set a := offered_load c r h with ha_def
  have hpcw : prob_call_waits c r h n2 ≤ prob_call_waits c r h n1 := by
    rcases lt_or_eq_of_le ha with hpos | hzero
    · exact pcw_antitone hpos h12
    · rw [pcw_eq_clamp_probCore, pcw_eq_clamp_probCore, ← ha_def, ← hzero,
        probCore_zero_intensity, probCore_zero_intensity]
  have hexp : Real.exp (-((n2 : ℝ) - a) * T / h) ≤ Real.exp (-((n1 : ℝ) - a) * T / h) := by
    apply Real.exp_le_exp.mpr
    have hn : (n1 : ℝ) ≤ (n2 : ℝ) := by exact_mod_cast h12
    have hTh : 0 ≤ T / h := by positivity
    calc -((n2 : ℝ) - a) * T / h = -(((n2 : ℝ) - a) * (T / h)) := by ring
      _ ≤ -(((n1 : ℝ) - a) * (T / h)) := by nlinarith
      _ = -((n1 : ℝ) - a) * T / h := by ring
  rw [service_level, service_level, slRaw, slRaw, if_neg hr60, if_neg hr60,
    if_neg hh0, if_neg hh0]
  apply clamp01_mono
  have h2 : prob_call_waits c r h n2 * Real.exp (-((n2 : ℝ) - a) * T / h) ≤
      prob_call_waits c r h n1 * Real.exp (-((n1 : ℝ) - a) * T / h) :=
    mul_le_mul hpcw hexp (le_of_lt (Real.exp_pos _)) (pcw_nonneg c r h n1)
  linarith

/-- For a load in the spec's declared domain and positive agent counts,
`occupancy` is antitone in the agent count. -/
theorem occupancy_antitone {c r h : ℝ} (hc : 0 ≤ c) (hr : 0 < r) (hh : 0 < h)
    {n1 n2 : ℤ} (h1 : 1 ≤ n1) (h12 : n1 ≤ n2) :
    occupancy c r h n2 ≤ occupancy c r h n1 := by
  have hr60 : r * 60 ≠ 0 := by positivity
  have ha : 0 ≤ offered_load c r h := by
    rw [offered_load]
    positivity
  have hn1 : (0 : ℝ) < (n1 : ℝ) := by exact_mod_cast h1
  have hn2 : (0 : ℝ) < (n2 : ℝ) := by
    have : (1 : ℤ) ≤ n2 := le_trans h1 h12
    exact_mod_cast this
  have hcast : (n1 : ℝ) ≤ (n2 : ℝ) := by exact_mod_cast h12
  rw [occupancy, occupancy, occRaw, occRaw, if_neg hr60, if_neg hr60,
    if_neg (by omega : ¬n1 = 0), if_neg (by omega : ¬n2 = 0)]
  have hdiv : offered_load c r h / (n2 : ℝ) ≤ offered_load c r h / (n1 : ℝ) :=
    div_le_div_of_nonneg_left ha hn1 hcast
  exact max_le_max le_rfl (min_le_min hdiv le_rfl)

/-! ### Termination of the two search loops of `agents_required` -/

open Classical in
theorem leastN_spec {P : ℕ → Prop} (h : ∃ n, P n) : P (leastN P) := by
  rw [leastN, dif_pos h]
  exact Nat.find_spec h

open Classical in
theorem leastN_eq_zero {P : ℕ → Prop} (h : P 0) : leastN P = 0 := by
  rw [leastN, dif_pos ⟨0, h⟩]
  exact (Nat.find_eq_zero ⟨0, h⟩).mpr h

/-- Phase-A termination: for any validated policy parameters and any real
call volume, some agent count at or above any starting point meets the
service-level target, because `sl ≥ 1 - exp(-(agents - intensity) * T / h)`
tends to `1`.  This is the loop-variant behind the spec's monotonicity
argument. -/
theorem exists_service_level_ge {c r h T sl_t : ℝ} (hr : 5 ≤ r) (hh : 1 ≤ h)
    (hT : 1 ≤ T) (hsl : sl_t ≤ 0.9998) (start : ℤ) :
    ∃ n : ℕ, sl_t ≤ service_level c r h T (start + (n : ℤ)) := by
  set a := offered_load c r h with ha_def
  have hr60 : (0 : ℝ) < r * 60 := by linarith
  have hh0 : (0 : ℝ) < h := by linarith
  have hT0 : (0 : ℝ) < T := by linarith
  have h1t : (0 : ℝ) < 1 - sl_t := by norm_num at hsl ⊢; linarith
  obtain ⟨n, hn⟩ := exists_nat_ge (a - (start : ℝ) + h / T * (1 / (1 - sl_t)))
  refine ⟨n, ?_⟩
  set m : ℤ := start + (n : ℤ) with hm_def
  have hm : a + h / T * (1 / (1 - sl_t)) ≤ (m : ℝ) := by
    rw [hm_def]
    push_cast
    linarith
  have hx : 1 / (1 - sl_t) ≤ ((m : ℝ) - a) * T / h := by
    have hmul : h / T * (1 / (1 - sl_t)) * (T / h) = 1 / (1 - sl_t) := by
      field_simp
      ring
    have h2 : h / T * (1 / (1 - sl_t)) * (T / h) ≤ ((m : ℝ) - a) * (T / h) :=
      mul_le_mul_of_nonneg_right (by linarith) (by positivity)
    rw [hmul] at h2
    calc 1 / (1 - sl_t) ≤ ((m : ℝ) - a) * (T / h) := h2
      _ = ((m : ℝ) - a) * T / h := by ring
  have hx0 : (0 : ℝ) < ((m : ℝ) - a) * T / h := lt_of_lt_of_le (by positivity) hx
  have hexp : Real.exp (-(((m : ℝ) - a) * T / h)) ≤ 1 - sl_t := by
    have h2 : ((m : ℝ) - a) * T / h + 1 ≤ Real.exp (((m : ℝ) - a) * T / h) :=
      Real.add_one_le_exp _
    have h3 : Real.exp (-(((m : ℝ) - a) * T / h)) = 1 / Real.exp (((m : ℝ) - a) * T / h) := by
      rw [Real.exp_neg]
      exact (one_div _).symm
    have h4 : 1 / Real.exp (((m : ℝ) - a) * T / h) ≤ 1 / (((m : ℝ) - a) * T / h + 1) :=
      one_div_le_one_div_of_le (by positivity) h2
    have h5 : 1 / (((m : ℝ) - a) * T / h + 1) ≤ 1 - sl_t := by
      rw [div_le_iff₀ (by positivity)]
      have h6 : 1 ≤ (1 - sl_t) * (((m : ℝ) - a) * T / h) := by
        rw [← div_le_iff₀' h1t]
        exact hx
      nlinarith
    linarith [h3 ▸ h4]
  have hsl1 : sl_t ≤ 1 := by norm_num at hsl ⊢; linarith
  rw [service_level, slRaw, if_neg (ne_of_gt hr60), if_neg (ne_of_gt hh0)]
  have hE : Real.exp (-((m : ℝ) - a) * T / h) ≤ 1 - sl_t := by
    have : -((m : ℝ) - a) * T / h = -(((m : ℝ) - a) * T / h) := by ring
    rw [this]
    exact hexp
  have hpcwE : prob_call_waits c r h m * Real.exp (-((m : ℝ) - a) * T / h) ≤ 1 - sl_t := by
    have hEpos : 0 ≤ Real.exp (-((m : ℝ) - a) * T / h) := le_of_lt (Real.exp_pos _)
    calc prob_call_waits c r h m * Real.exp (-((m : ℝ) - a) * T / h)
        ≤ 1 * Real.exp (-((m : ℝ) - a) * T / h) :=
          mul_le_mul_of_nonneg_right (pcw_le_one c r h m) hEpos
      _ = Real.exp (-((m : ℝ) - a) * T / h) := one_mul _
      _ ≤ 1 - sl_t := hE
  have hraw : sl_t ≤ 1 - prob_call_waits c r h m * Real.exp (-((m : ℝ) - a) * T / h) := by
    linarith
  calc sl_t ≤ min (1 - prob_call_waits c r h m * Real.exp (-((m : ℝ) - a) * T / h)) 1 :=
        le_min hraw hsl1
    _ ≤ clamp01 (1 - prob_call_waits c r h m * Real.exp (-((m : ℝ) - a) * T / h)) :=
        le_max_right _ _

/-- Phase-B termination: for any validated policy parameters, some agent
count at or above any starting point meets the occupancy cap, because
`intensity / agents` tends to `0`. -/
theorem exists_occupancy_le {c r h occ_t : ℝ} (hr : 5 ≤ r) (hocc : 0.00001 ≤ occ_t)
    (start : ℤ) : ∃ n : ℕ, occupancy c r h (start + (n : ℤ)) ≤ occ_t := by
  set a := offered_load c r h with ha_def
  have hr60 : (0 : ℝ) < r * 60 := by linarith
  have hocc0 : (0 : ℝ) < occ_t := by norm_num at hocc ⊢; linarith
  obtain ⟨n, hn⟩ := exists_nat_ge (max (a / occ_t - (start : ℝ)) (1 - (start : ℝ)))
  refine ⟨n, ?_⟩
  set m : ℤ := start + (n : ℤ) with hm_def
  have hge : max (a / occ_t - (start : ℝ)) (1 - (start : ℝ)) ≤ (n : ℝ) := hn
  have hm1 : (1 : ℝ) ≤ (m : ℝ) := by
    have := le_trans (le_max_right _ _) hge
    rw [hm_def]
    push_cast
    linarith
  have hma : a / occ_t ≤ (m : ℝ) := by
    have := le_trans (le_max_left _ _) hge
    rw [hm_def]
    push_cast
    linarith
  have hm0 : (0 : ℝ) < (m : ℝ) := by linarith
  have hmz : ¬m = 0 := by
    intro h0
    rw [h0] at hm0
    norm_num at hm0
  have hdiv : a / (m : ℝ) ≤ occ_t := by
    rw [div_le_iff₀ hm0]
    calc a = a / occ_t * occ_t := by field_simp
      _ ≤ (m : ℝ) * occ_t := mul_le_mul_of_nonneg_right hma (le_of_lt hocc0)
      _ = occ_t * (m : ℝ) := by ring
  rw [occupancy, occRaw, if_neg (ne_of_gt hr60), if_neg hmz]
  exact max_le (le_of_lt hocc0) (le_trans (min_le_left _ _) hdiv)

/-- `¬outOfRange` unpacked into the twelve range facts. -/
theorem validRanges {r h sl_t occ_t T sh : ℝ}
    (hval : ¬outOfRange r h sl_t occ_t T sh) :
    5 ≤ r ∧ r ≤ 1500 ∧ 1 ≤ h ∧ h ≤ 30000 ∧ 0.00001 ≤ sl_t ∧ sl_t ≤ 0.9998 ∧
      0.00001 ≤ occ_t ∧ occ_t ≤ 0.9998 ∧ 1 ≤ T ∧ T ≤ 30000 ∧ 0 ≤ sh ∧ sh ≤ 0.9998 := by
  rw [outOfRange] at hval
  push_neg at hval
  obtain ⟨h1, h2, h3, h4, h5, h6, h7, h8, h9, h10, h11, h12⟩ := hval
  exact ⟨h1, h2, h3, h4, h5, h6, h7, h8, h9, h10, h11, h12⟩

/-- The agent count after the first loop meets the service-level target. -/
theorem phaseA_meets_target {c r h sl_t T : ℝ} (hr : 5 ≤ r) (hh : 1 ≤ h)
    (hT : 1 ≤ T) (hsl : sl_t ≤ 0.9998) :
    sl_t ≤ service_level c r h T (phaseA c r h sl_t T) :=
  leastN_spec (exists_service_level_ge hr hh hT hsl
    (minAgents c r h))

/-- The agent count after the second loop meets the occupancy cap. -/
theorem phaseB_meets_occupancy {c r h sl_t T occ_t : ℝ} (hr : 5 ≤ r)
    (hocc : 0.00001 ≤ occ_t) :
    occupancy c r h (phaseB c r h sl_t T occ_t) ≤ occ_t :=
  leastN_spec (exists_occupancy_le hr hocc (phaseA c r h sl_t T))

/-- The second loop never goes below the first loop's result. -/
theorem phaseA_le_phaseB (c r h sl_t T occ_t : ℝ) :
    phaseA c r h sl_t T ≤ phaseB c r h sl_t T occ_t := by
  rw [phaseB]
  omega

/-- The first loop starts at `min_agents ≥ 1`, so the pre-shrinkage agent
count is a positive integer. -/
theorem one_le_phaseA (c r h sl_t T : ℝ) : 1 ≤ phaseA c r h sl_t T := by
  rw [phaseA]
  have : 1 ≤ minAgents c r h := le_max_left _ _
  omega

/-! ### The claims -/

/-- C1: for every input whose derived intensity is zero, and for every input
with positive intensity and `agents ≤ intensity`, `prob_call_waits` does not
raise (it is total, every caught exception being an explicit branch) and
returns exactly `1`. -/
theorem C1_degenerate_inputs_return_one (c r h : ℝ) (n : ℤ)
    (hdeg : offered_load c r h = 0 ∨
      (0 < offered_load c r h ∧ (n : ℝ) ≤ offered_load c r h)) :
    prob_call_waits c r h n = 1 := by
  rw [pcw_eq_clamp_probCore]
  rcases hdeg with hz | ⟨ha, hna⟩
  · rw [hz, probCore_zero_intensity, clamp01_one]
  · rcases le_or_lt n 0 with hn | hn
    · rw [probCore_nonpos hn, clamp01_one]
    · exact clamp01_of_one_le (one_le_probCore ha (by omega) hna)

/-- Witness for C1 at `calls = 60`, `period = 1`, `aht = 2`, `agents = 2`:
the intensity is `2`, so `agents ≤ intensity`, and the result is `1`. -/
theorem C1_degenerate_inputs_return_one_witness :
    (0 < offered_load 60 1 2 ∧ ((2 : ℤ) : ℝ) ≤ offered_load 60 1 2) ∧
      prob_call_waits 60 1 2 2 = 1 := by
  have hdeg : 0 < offered_load 60 1 2 ∧ ((2 : ℤ) : ℝ) ≤ offered_load 60 1 2 := by
    rw [offered_load]
    norm_num
  exact ⟨hdeg, C1_degenerate_inputs_return_one 60 1 2 2 (Or.inr hdeg)⟩

/-- C3: `agents_required` returns the `OutOfRange` failure (`none`) exactly
when one of the six validation ranges is violated; otherwise it computes a
result (`some`). -/
theorem C3_validation_iff (c r h sl_t T occ_t sh : ℝ) :
    agents_required c r h sl_t T occ_t sh = none ↔
      (r < 5 ∨ 1500 < r ∨ h < 1 ∨ 30000 < h ∨ sl_t < 0.00001 ∨ 0.9998 < sl_t ∨
        occ_t < 0.00001 ∨ 0.9998 < occ_t ∨ T < 1 ∨ 30000 < T ∨ sh < 0 ∨ 0.9998 < sh) := by
  rw [agents_required]
  by_cases hv : outOfRange r h sl_t occ_t T sh
  · rw [if_pos hv]
    exact ⟨fun _ => hv, fun _ => rfl⟩
  · rw [if_neg hv]
    constructor
    · intro hcontra
      by_cases hc : c = 0
      · rw [if_pos hc] at hcontra
        exact Option.noConfusion hcontra
      · rw [if_neg hc] at hcontra
        exact Option.noConfusion hcontra
    · intro hd
      exact absurd hd hv

/-- C4: with `calls = 0` and validated policy parameters, `agents_required`
returns exactly `0`, overriding the floor of one agent and the shrinkage
inflation. -/
theorem C4_zero_calls_zero_agents (r h sl_t T occ_t sh : ℝ)
    (hval : ¬outOfRange r h sl_t occ_t T sh) :
    agents_required 0 r h sl_t T occ_t sh = some 0 := by
  rw [agents_required, if_neg hval, if_pos rfl]

/-- Witness for C4 at the spec's example policy parameters. -/
theorem C4_zero_calls_zero_agents_witness :
    agents_required 0 30 360 0.8 30 0.85 0.17 = some 0 :=
  C4_zero_calls_zero_agents 30 360 0.8 30 0.85 0.17 (by norm_num [outOfRange])

/-- C5: for every input that passes validation, both search loops of
`agents_required` terminate: an agent count at or above the Phase-A start
meets the service-level target, and one at or above the Phase-A result meets
the occupancy cap. -/
theorem C5_search_loops_terminate (c r h sl_t T occ_t sh : ℝ)
    (hval : ¬outOfRange r h sl_t occ_t T sh) :
    (∃ n : ℕ, sl_t ≤ service_level c r h T (minAgents c r h + (n : ℤ))) ∧
    (∃ n : ℕ, occupancy c r h (phaseA c r h sl_t T + (n : ℤ)) ≤ occ_t) := by
  obtain ⟨h1, h2, h3, h4, h5, h6, h7, h8, h9, h10, h11, h12⟩ := validRanges hval
  exact ⟨exists_service_level_ge h1 h3 h9 h6 _, exists_occupancy_le h1 h7 _⟩

/-- Witness for C5 at the spec's example scenario. -/
theorem C5_search_loops_terminate_witness :
    (∃ n : ℕ, (0.8 : ℝ) ≤ service_level 100 30 360 30 (minAgents 100 30 360 + (n : ℤ))) ∧
    (∃ n : ℕ, occupancy 100 30 360 (phaseA 100 30 360 0.8 30 + (n : ℤ)) ≤ (0.85 : ℝ)) :=
  C5_search_loops_terminate 100 30 360 0.8 30 0.85 0.17 (by norm_num [outOfRange])

/-- C6: with the load in the spec's declared domain (call volume `≥ 0`,
interval in `[5, 1500]` minutes, handling time and wait target in
`[1, 30000]` seconds, agent counts `≥ 1`), `service_level` is monotone
non-decreasing in the agent count. -/
theorem C6_service_level_monotone_in_agents (c r h T : ℝ) (n1 n2 : ℤ)
    (hc : 0 ≤ c) (hr1 : 5 ≤ r) (hr2 : r ≤ 1500) (hh1 : 1 ≤ h) (hh2 : h ≤ 30000)
    (hT1 : 1 ≤ T) (hT2 : T ≤ 30000) (hn1 : 1 ≤ n1) (hn12 : n1 < n2) :
    service_level c r h T n1 ≤ service_level c r h T n2 :=
  service_level_mono hc (by linarith) (by linarith) (by linarith) (le_of_lt hn12)

/-- Witness for C6 at the spec's example load with agents 21 and 22. -/
theorem C6_service_level_monotone_in_agents_witness :
    service_level 100 30 360 30 21 ≤ service_level 100 30 360 30 22 :=
  C6_service_level_monotone_in_agents 100 30 360 30 21 22 (by norm_num) (by norm_num)
    (by norm_num) (by norm_num) (by norm_num) (by norm_num) (by norm_num) (by norm_num)
    (by norm_num)

/-- C8: with no precondition at all, `prob_call_waits` and `service_level`
land in `[0, 1]` and `occupancy` lands in `[0, 0.99]`, on the normal paths
and on every failure-fallback branch alike (the final clamps are outside the
source's `try` blocks). -/
theorem C8_outputs_within_bounds (c r h T : ℝ) (n : ℤ) :
    (0 ≤ prob_call_waits c r h n ∧ prob_call_waits c r h n ≤ 1) ∧
    (0 ≤ service_level c r h T n ∧ service_level c r h T n ≤ 1) ∧
    (0 ≤ occupancy c r h n ∧ occupancy c r h n ≤ 0.99) := by
  refine ⟨⟨pcw_nonneg c r h n, pcw_le_one c r h n⟩,
    ⟨clamp01_nonneg _, clamp01_le_one _⟩, le_max_left _ _, ?_⟩
  exact max_le (by norm_num) (min_le_right _ _)

/-- C9: with the load in the spec's declared domain and agent counts `≥ 1`,
`occupancy` is monotone non-increasing in the agent count. -/
theorem C9_occupancy_antitone_in_agents (c r h : ℝ) (n1 n2 : ℤ)
    (hc : 0 ≤ c) (hr1 : 5 ≤ r) (hr2 : r ≤ 1500) (hh1 : 1 ≤ h) (hh2 : h ≤ 30000)
    (hn1 : 1 ≤ n1) (hn12 : n1 < n2) :
    occupancy c r h n2 ≤ occupancy c r h n1 :=
  occupancy_antitone hc (by linarith) (by linarith) hn1 (le_of_lt hn12)

/-- Witness for C9 at the spec's example load with agents 20 and 25. -/
theorem C9_occupancy_antitone_in_agents_witness :
    occupancy 100 30 360 25 ≤ occupancy 100 30 360 20 :=
  C9_occupancy_antitone_in_agents 100 30 360 20 25 (by norm_num) (by norm_num)
    (by norm_num) (by norm_num) (by norm_num) (by norm_num) (by norm_num)

/-- C10: `prob_call_waits` reads its three load arguments only through the
derived intensity `calls / (interval * 60) * aht`: two argument triples with
equal intensity and the same agent count give equal results, including across
the failure-fallback paths. -/
theorem C10_depends_only_on_intensity (c1 r1 h1 c2 r2 h2 : ℝ) (n : ℤ)
    (hint : offered_load c1 r1 h1 = offered_load c2 r2 h2) :
    prob_call_waits c1 r1 h1 n = prob_call_waits c2 r2 h2 n := by
  rw [pcw_eq_clamp_probCore, pcw_eq_clamp_probCore, hint]

/-- Witness for C10: `(120, 1, 30)` and `(60, 1, 60)` both have intensity
`60`. -/
theorem C10_depends_only_on_intensity_witness :
    offered_load 120 1 30 = offered_load 60 1 60 ∧
      prob_call_waits 120 1 30 5 = prob_call_waits 60 1 60 5 := by
  have hint : offered_load 120 1 30 = offered_load 60 1 60 := by
    rw [offered_load, offered_load]
    norm_num
  exact ⟨hint, C10_depends_only_on_intensity 120 1 30 60 1 60 5 hint⟩

/-- C2: for every validated input with positive call volume, the
pre-shrinkage agent count (the value of `agents` after both search loops)
meets the service-level target, respects the occupancy cap, and is never
below the Phase-A result. -/
theorem C2_pre_shrinkage_agents_feasible (c r h sl_t T occ_t sh : ℝ)
    (hval : ¬outOfRange r h sl_t occ_t T sh) (hc : 0 < c) :
    sl_t ≤ service_level c r h T (phaseB c r h sl_t T occ_t) ∧
    occupancy c r h (phaseB c r h sl_t T occ_t) ≤ occ_t ∧
    phaseA c r h sl_t T ≤ phaseB c r h sl_t T occ_t := by
  obtain ⟨h1, h2, h3, h4, h5, h6, h7, h8, h9, h10, h11, h12⟩ := validRanges hval
  refine ⟨?_, phaseB_meets_occupancy h1 h7, phaseA_le_phaseB c r h sl_t T occ_t⟩
  calc sl_t ≤ service_level c r h T (phaseA c r h sl_t T) :=
        phaseA_meets_target h1 h3 h9 h6
    _ ≤ service_level c r h T (phaseB c r h sl_t T occ_t) :=
        service_level_mono (le_of_lt hc) (by linarith) (by linarith) (by linarith)
          (phaseA_le_phaseB c r h sl_t T occ_t)

/-- Witness for C2 at the spec's example scenario
(`calls = 100, period = 30, aht = 360, target 80% in 30s, occupancy ≤ 85%`). -/
theorem C2_pre_shrinkage_agents_feasible_witness :
    (0.8 : ℝ) ≤ service_level 100 30 360 30 (phaseB 100 30 360 0.8 30 0.85) ∧
    occupancy 100 30 360 (phaseB 100 30 360 0.8 30 0.85) ≤ (0.85 : ℝ) ∧
    phaseA 100 30 360 0.8 30 ≤ phaseB 100 30 360 0.8 30 0.85 :=
  C2_pre_shrinkage_agents_feasible 100 30 360 0.8 30 0.85 0.17
    (by norm_num [outOfRange]) (by norm_num)

/-- C7 (amended): for shrinkage in the band `(0.99, 0.9998]` validation
passes, the shrinkage used by the inflation step is silently clamped to
`0.99`, and — provided `calls ≠ 0`, since the `calls == 0` special case
returns `0` instead — the result is `⌈agents / (1 - 0.99)⌉` for the
pre-shrinkage agent count. -/
theorem C7_shrinkage_band_clamped (c r h sl_t T occ_t sh : ℝ)
    (hval : ¬outOfRange r h sl_t occ_t T sh) (hband : 0.99 < sh) (hc : c ≠ 0) :
    agents_required c r h sl_t T occ_t sh =
      some ⌈(phaseB c r h sl_t T occ_t : ℝ) / (1 - 0.99)⌉ := by
  rw [agents_required, if_neg hval, if_neg hc, min_eq_right (le_of_lt hband),
    max_eq_right (by norm_num : (0 : ℝ) ≤ 0.99)]

/-- Witness for C7's amended claim with `shrinkage = 0.995` in the band. -/
theorem C7_shrinkage_band_clamped_witness :
    agents_required 100 30 360 0.8 30 0.85 0.995 =
      some ⌈(phaseB 100 30 360 0.8 30 0.85 : ℝ) / (1 - 0.99)⌉ :=
  C7_shrinkage_band_clamped 100 30 360 0.8 30 0.85 0.995
    (by norm_num [outOfRange]) (by norm_num) (by norm_num)

/-- Counterexample to C7 as stated: at `calls = 0` (with every policy
parameter validated and `shrinkage = 0.995` in the band `(0.99, 0.9998]`),
the pre-shrinkage agent count is `1` and the claimed result
`⌈1 / (1 - 0.99)⌉ = 100` differs from the actual result `0` produced by the
`calls == 0` special case. -/
theorem C7_counterexample_zero_calls :
    ¬outOfRange 30 1 (1 / 2) (85 / 100) 30000 (995 / 1000) ∧
    (0.99 : ℝ) < 995 / 1000 ∧
    agents_required 0 30 1 (1 / 2) 30000 (85 / 100) (995 / 1000) ≠
      some ⌈(phaseB 0 30 1 (1 / 2) 30000 (85 / 100) : ℝ) / (1 - 0.99)⌉ := by
  have hval : ¬outOfRange 30 1 (1 / 2) (85 / 100) 30000 (995 / 1000) := by
    norm_num [outOfRange]
  refine ⟨hval, by norm_num, ?_⟩
  have hload : offered_load 0 30 1 = 0 := by
    rw [offered_load]
    norm_num
  have hminA : minAgents 0 30 1 = 1 := by
    rw [minAgents, pyInt, hload]
    norm_num
  have hsl1 : (1 : ℝ) / 2 ≤
      service_level 0 30 1 30000 (minAgents 0 30 1 + ((0 : ℕ) : ℤ)) := by
    rw [hminA]
    norm_num
    rw [service_level, slRaw, if_neg (by norm_num : ¬(30 : ℝ) * 60 = 0),
      if_neg (by norm_num : ¬(1 : ℝ) = 0)]
    have hpcw : prob_call_waits 0 30 1 1 = 1 := by
      rw [pcw_eq_clamp_probCore, hload, probCore_zero_intensity, clamp01_one]
    rw [hpcw, hload, one_mul]
    have harg : -(((1 : ℤ) : ℝ) - 0) * 30000 / 1 = -30000 := by norm_num
    rw [harg]
    have hEpos : 0 < Real.exp (-30000 : ℝ) := Real.exp_pos _
    have hEhalf : Real.exp (-30000 : ℝ) ≤ 1 / 2 := by
      have h1 : Real.exp (-30000 : ℝ) ≤ Real.exp (-1 : ℝ) :=
        Real.exp_le_exp.mpr (by norm_num)
      have h3 : (2 : ℝ) < Real.exp 1 := lt_trans (by norm_num) Real.exp_one_gt_d9
      have h2 : Real.exp (-1 : ℝ) < 1 / 2 := by
        rw [Real.exp_neg]
        have := inv_lt_inv_of_lt (by norm_num : (0 : ℝ) < 2) h3
        norm_num at this ⊢
        linarith
      linarith
    rw [clamp01, min_eq_left (by linarith : 1 - Real.exp (-30000 : ℝ) ≤ 1),
      max_eq_right (by linarith : (0 : ℝ) ≤ 1 - Real.exp (-30000 : ℝ))]
    linarith
  have hphaseA : phaseA 0 30 1 (1 / 2) 30000 = 1 := by
    rw [phaseA, leastN_eq_zero hsl1, hminA]
    norm_num
  have hocc1 : occupancy 0 30 1 (phaseA 0 30 1 (1 / 2) 30000 + ((0 : ℕ) : ℤ)) ≤
      (85 : ℝ) / 100 := by
    rw [hphaseA]
    norm_num
    rw [occupancy, occRaw, if_neg (by norm_num : ¬(30 : ℝ) * 60 = 0),
      if_neg (by norm_num : ¬(1 : ℤ) = 0), hload]
    norm_num
  have hphaseB : phaseB 0 30 1 (1 / 2) 30000 (85 / 100) = 1 := by
    rw [phaseB, leastN_eq_zero hocc1, hphaseA]
    norm_num
  rw [agents_required, if_neg hval, if_pos rfl, hphaseB]
  intro hcontra
  have h0 : (0 : ℤ) = ⌈((1 : ℤ) : ℝ) / (1 - 0.99)⌉ := Option.some.inj hcontra
  have hceil : ⌈((1 : ℤ) : ℝ) / (1 - 0.99)⌉ = 100 := by
    rw [show ((1 : ℤ) : ℝ) / (1 - 0.99) = ((100 : ℤ) : ℝ) by push_cast; norm_num,
      Int.ceil_intCast]
  omega

end MacroDaddy
